import Mathlib

/-!
Verification of the three-tier permission-decision pipeline
(fast rules, decision cache, model arbiter) of the
claude-code-permission-hook repository, as a shallow embedding.

Modelling conventions:
* TypeScript objects whose fields are inspected become Lean structures;
  `toolInput`, an open JS object, becomes an insertion-ordered association
  list of JSON values, matching the order-preserving semantics of
  `JSON.parse`/`JSON.stringify` for string keys.
* The JavaScript regular-expression engine is external to the repository:
  a regex literal or operator-supplied pattern is modelled as a `RegexSpec`
  carrying its source text, whether it compiles (`new RegExp` throws a
  SyntaxError on an invalid source), and its matching function.
* File and network I/O is made explicit: the cache store is passed in and
  out, `Date.now()` becomes a `now : Nat` argument, and the single
  chat-completions call of the model arbiter becomes an `LLMOutcome` value
  describing what the external service (plus `JSON.parse`) produced.
* Code that throws becomes `Except String`; a `.error` value is an
  uncaught JavaScript exception escaping the modelled function.
-/

/-- JSON values as produced by `JSON.parse` on the hook input: objects keep
their key insertion order, which is what `JSON.stringify` later serializes. -/
inductive Json where
  | null : Json
  | bool : Bool → Json
  | num : Int → Json
  | str : String → Json
  | arr : List Json → Json
  | obj : List (String × Json) → Json

/-- String-escaping for one character, as done by `JSON.stringify`
(quotes and backslashes; control characters do not occur in our inputs). -/
def escapeChar (c : Char) : String :=
  if c = ('"') then "\\\""
  else if c = ('\\') then "\\\\"
  else String.singleton c

/-- `JSON.stringify` escaping of a string body. -/
def escapeString (s : String) : String :=
  s.data.foldr (fun c acc => escapeChar c ++ acc) ""

mutual

/-- `JSON.stringify` with no indentation, serializing object fields in
insertion order exactly as V8 does for string keys. -/
def Json.stringify : Json → String
  | .null => "null"
  | .bool true => "true"
  | .bool false => "false"
  | .num n => toString n
  | .str s => "\"" ++ escapeString s ++ "\""
  | .arr xs => "[" ++ Json.stringifyArray xs ++ "]"
  | .obj fs => "\x7b" ++ Json.stringifyFields fs ++ "\x7d"

/-- Comma-separated serialization of array elements. -/
def Json.stringifyArray : List Json → String
  | [] => ""
  | [x] => Json.stringify x
  | x :: y :: xs => Json.stringify x ++ "," ++ Json.stringifyArray (y :: xs)

/-- Comma-separated serialization of object fields, in insertion order. -/
def Json.stringifyFields : List (String × Json) → String
  | [] => ""
  | [(k, v)] => "\"" ++ escapeString k ++ "\":" ++ Json.stringify v
  | (k, v) :: f :: fs =>
      "\"" ++ escapeString k ++ "\":" ++ Json.stringify v ++ ","
        ++ Json.stringifyFields (f :: fs)

end

/-- First-match association-list lookup, the behaviour of reading a property
of a parsed JSON object. -/
def assocLookup {α : Type} : List (String × α) → String → Option α
  | [], _ => none
  | (k, v) :: rest, key => if k = key then some v else assocLookup rest key

/-- A regular expression as data: its source text, whether `new RegExp`
accepts it, and the matching predicate of the (external) regex engine. -/
structure RegexSpec where
  src : String
  valid : Bool
  test : String → Bool

/-- `new RegExp(pattern)`: throws a SyntaxError when the source is not a
valid regular expression, otherwise yields the compiled matcher. -/
def compileRegex (p : RegexSpec) : Except String (String → Bool) :=
  if p.valid then .ok p.test
  else .error ("Invalid regular expression: " ++ p.src)

/-- The `cache` section of the operator configuration. -/
structure CacheConfig where
  enabled : Bool
  ttlHours : Nat

/-- The slice of the operator configuration consumed by the decision
pipeline: the three custom pattern lists and the cache settings. -/
structure Config where
  customDenyPatterns : List RegexSpec
  customAllowPatterns : List RegexSpec
  customPassthroughPatterns : List RegexSpec
  cache : CacheConfig

/-- The decision field of `FastDecisionResult` in fast-decisions.ts:
one of "allow", "deny", "passthrough", "llm". -/
inductive FastDecision where
  | allow : FastDecision
  | deny : FastDecision
  | passthrough : FastDecision
  | llm : FastDecision
deriving DecidableEq

/-- `FastDecisionResult` of fast-decisions.ts. -/
structure FastDecisionResult where
  decision : FastDecision
  reason : Option String
deriving DecidableEq

/-- `INSTANT_ALLOW_TOOLS` of fast-decisions.ts. -/
def INSTANT_ALLOW_TOOLS : List String :=
  ["Read", "Glob", "Grep", "LS", "WebFetch", "WebSearch", "NotebookRead",
   "BashOutput", "Write", "Edit", "MultiEdit", "NotebookEdit", "TodoWrite",
   "Task"]

/-- `INSTANT_PASSTHROUGH_TOOLS` of fast-decisions.ts. -/
def INSTANT_PASSTHROUGH_TOOLS : List String :=
  ["AskUserQuestion"]

/-- The two built-in pattern tables of fast-decisions.ts
(`INSTANT_DENY_BASH_PATTERNS` and `FAST_ALLOW_BASH_PATTERNS`).  Their
regex literals always compile; their matching semantics belong to the
external regex engine, so the tables are parameters of the model. -/
structure Builtins where
  instantDenyBashPatterns : List RegexSpec
  fastAllowBashPatterns : List RegexSpec

/-- The `toolInput.command as string` read followed by the truthiness
guard `if (command)`: an absent field or an empty string both disable the
Bash-specific pattern checks. -/
def bashCommand (toolInput : List (String × Json)) : String :=
  match assocLookup toolInput ("command") with
  | some (Json.str s) => s
  | _ => ""

/-- The first loop of `checkFastDecision`: each custom deny pattern is
compiled with `new RegExp` (which may throw) and tested against the tool
name and against the serialized tool input. -/
def checkCustomDeny :
    List RegexSpec → String → String → Except String (Option FastDecisionResult)
  | [], _, _ => .ok none
  | p :: rest, toolName, inputJson =>
    match compileRegex p with
    | .error e => .error e
    | .ok test =>
      if test toolName || test inputJson then
        .ok (some ⟨.deny, some ("Blocked by custom deny pattern: " ++ p.src)⟩)
      else
        checkCustomDeny rest toolName inputJson

/-- The custom allow loop of `checkFastDecision`: patterns are compiled
(possibly throwing) and tested against the tool name only. -/
def checkCustomAllow :
    List RegexSpec → String → Except String (Option FastDecisionResult)
  | [], _ => .ok none
  | p :: rest, toolName =>
    match compileRegex p with
    | .error e => .error e
    | .ok test =>
      if test toolName then
        .ok (some ⟨.allow, some ("Allowed by custom pattern: " ++ p.src)⟩)
      else
        checkCustomAllow rest toolName

/-- The custom passthrough loop of `checkFastDecision`: patterns are
compiled (possibly throwing) and tested against the tool name and the
serialized tool input. -/
def checkCustomPassthrough :
    List RegexSpec → String → String → Except String (Option FastDecisionResult)
  | [], _, _ => .ok none
  | p :: rest, toolName, inputJson =>
    match compileRegex p with
    | .error e => .error e
    | .ok test =>
      if test toolName || test inputJson then
        .ok (some ⟨.passthrough, some ("Passthrough by custom pattern: " ++ p.src)⟩)
      else
        checkCustomPassthrough rest toolName inputJson

/-- The Bash-specific block of `checkFastDecision`: when the tool is Bash
and a non-empty command is present, scan the built-in destructive-deny
patterns first and the fast-allow workflow patterns second. -/
def checkBashPatterns (builtins : Builtins) (toolName : String)
    (toolInput : List (String × Json)) : Option FastDecisionResult :=
  if toolName = "Bash" then
    let command := bashCommand toolInput
    if command ≠ "" then
      match builtins.instantDenyBashPatterns.find? (fun p => p.test command) with
      | some p =>
          some ⟨.deny, some ("Blocked destructive command pattern: " ++ p.src)⟩
      | none =>
        match builtins.fastAllowBashPatterns.find? (fun p => p.test command) with
        | some p =>
            some ⟨.allow, some ("Allowed common dev workflow: " ++ p.src)⟩
        | none => none
    else none
  else none

/-- The `toolName.startsWith` namespace test of fast-decisions.ts,
written over the character lists so that it evaluates by reduction. -/
def strStartsWith (s pre : String) : Bool :=
  pre.data.isPrefixOf s.data

/-- The tail of `checkFastDecision` after the custom-deny loop and the
Bash-specific block: custom allow, custom passthrough, instant
passthrough tools, instant allow tools, the mcp__ namespace rule, and
the final fall-through to the LLM tier. -/
def checkFastDecisionRest (config : Config) (toolName : String)
    (inputJson : String) : Except String FastDecisionResult :=
  match checkCustomAllow config.customAllowPatterns toolName with
  | .error e => .error e
  | .ok (some r) => .ok r
  | .ok none =>
    match checkCustomPassthrough config.customPassthroughPatterns toolName inputJson with
    | .error e => .error e
    | .ok (some r) => .ok r
    | .ok none =>
      if INSTANT_PASSTHROUGH_TOOLS.contains toolName then
        .ok ⟨.passthrough,
          some ("Tool " ++ toolName ++ " requires user interaction - showing native dialog")⟩
      else if INSTANT_ALLOW_TOOLS.contains toolName then
        .ok ⟨.allow, some ("Tool " ++ toolName ++ " is in instant-allow list")⟩
      else if strStartsWith toolName ("mcp__") then
        .ok ⟨.allow, some ("MCP tools are auto-approved")⟩
      else
        .ok ⟨.llm, some ("Requires LLM analysis")⟩

/-- `checkFastDecision` of fast-decisions.ts: the ordered fast-tier rule
evaluation.  The result is `Except` because the custom-pattern loops call
`new RegExp` unguarded, so an invalid operator pattern propagates a
SyntaxError out of the function. -/
def checkFastDecision (builtins : Builtins) (config : Config)
    (toolName : String) (toolInput : List (String × Json)) :
    Except String FastDecisionResult :=
  let inputJson := Json.stringify (Json.obj toolInput)
  match checkCustomDeny config.customDenyPatterns toolName inputJson with
  | .error e => .error e
  | .ok (some r) => .ok r
  | .ok none =>
    match checkBashPatterns builtins toolName toolInput with
    | some r => .ok r
    | none => checkFastDecisionRest config toolName inputJson

/-- The allow/deny union type used both by `LLMResponse.decision` and by
`CacheEntry.decision` in the TypeScript sources. -/
inductive BinaryDecision where
  | allow : BinaryDecision
  | deny : BinaryDecision
deriving DecidableEq

/-- The log-record string for a binary decision. -/
def BinaryDecision.toLogString : BinaryDecision → String
  | .allow => "allow"
  | .deny => "deny"

/-- `LLMResponse` of types.ts as consumed by llm-client.ts: a decision
restricted to allow/deny plus a reason string. -/
structure LLMResponse where
  decision : BinaryDecision
  reason : String
deriving DecidableEq

/-- Modelled from the spec: `LLMResponseSchema` lives in src/types.ts,
which is absent from the source snapshot.  The spec requires the response
to be validated against a strict schema, exactly one of allow or deny plus
a non-empty reason string; any violation is a validation error. -/
def LLMResponseSchemaParse (v : Json) : Except String LLMResponse :=
  match v with
  | .obj fields =>
    match assocLookup fields ("decision"), assocLookup fields ("reason") with
    | some (.str d), some (.str r) =>
      if r = "" then .error ("invalid response: empty reason")
      else if d = "allow" then .ok ⟨.allow, r⟩
      else if d = "deny" then .ok ⟨.deny, r⟩
      else .error ("invalid response: decision must be allow or deny")
    | _, _ => .error ("invalid response: missing decision or reason")
  | _ => .error ("invalid response: not an object")

/-- The observable result of the single outbound chat-completions call of
`queryLLM`, with the subsequent `JSON.parse` of the body folded in (both
are external to the repository): the awaited call may throw, the response
may carry no content, the content may fail to parse as JSON, or it parses
to a JSON value. -/
inductive LLMOutcome where
  | networkError : String → LLMOutcome
  | emptyContent : LLMOutcome
  | parseError : String → LLMOutcome
  | json : Json → LLMOutcome

/-- `queryLLM` of llm-client.ts.  The API key resolved by `getApiKey` and
the outcome of the external call are arguments; prompt construction does
not influence the returned verdict and is omitted.  Every failure path is
caught inside the function, so it is total. -/
def queryLLM (toolName : String) (toolInput : List (String × Json))
    (projectRoot : Option String) (apiKey : Option String)
    (outcome : LLMOutcome) : LLMResponse :=
  match apiKey with
  | none =>
      ⟨.deny, "No LLM API key configured - cannot make intelligent decision"⟩
  | some _ =>
    match outcome with
    | .networkError m => ⟨.deny, "LLM error: " ++ m⟩
    | .emptyContent => ⟨.deny, "Empty LLM response"⟩
    | .parseError m => ⟨.deny, "LLM error: " ++ m⟩
    | .json v =>
      match LLMResponseSchemaParse v with
      | .ok r => r
      | .error m => ⟨.deny, "LLM error: " ++ m⟩

/-- `CacheEntry` of types.ts as constructed in cache.ts. -/
structure CacheEntry where
  key : String
  decision : BinaryDecision
  reason : String
  timestamp : Nat
  toolName : String
  toolInput : List (String × Json)
  projectRoot : Option String

/-- The loaded cache file: a mapping from fingerprint to entry, modelled
as an association list with unique keys. -/
abbrev CacheStore : Type := List (String × CacheEntry)

/-- Property read `cache[key]`. -/
def lookupStore (store : CacheStore) (key : String) : Option CacheEntry :=
  assocLookup store key

/-- Property removal `delete cache[key]`. -/
def eraseStore (store : CacheStore) (key : String) : CacheStore :=
  List.filter (fun kv => kv.1 ≠ key) store

/-- Property write `cache[key] = entry`. -/
def insertStore (store : CacheStore) (key : String) (entry : CacheEntry) :
    CacheStore :=
  (key, entry) :: eraseStore store key

/-- The serialization handed to the sha256 hash by `generateCacheKey`:
`JSON.stringify` of an object literal with fields toolName, toolInput and
projectRoot-or-empty, in that insertion order. -/
def generateCacheKeyData (toolName : String)
    (toolInput : List (String × Json)) (projectRoot : Option String) :
    String :=
  Json.stringify (Json.obj
    [("toolName", Json.str toolName),
     ("toolInput", Json.obj toolInput),
     ("projectRoot", Json.str (projectRoot.getD ""))])

/-- `generateCacheKey` of cache.ts: the sha256 hex digest of the
serialized request.  The hash itself is an external primitive and is a
parameter of the model. -/
def generateCacheKey (hash : String → String) (toolName : String)
    (toolInput : List (String × Json)) (projectRoot : Option String) :
    String :=
  hash (generateCacheKeyData toolName toolInput projectRoot)

/-- `getCachedDecision` of cache.ts with the file I/O made explicit: the
loaded store comes in, and the possibly rewritten store goes out (a lazy
TTL eviction is the only mutation).  `Date.now()` is the `now` argument. -/
def getCachedDecision (hash : String → String) (config : Config)
    (store : CacheStore) (now : Nat) (toolName : String)
    (toolInput : List (String × Json)) (projectRoot : Option String) :
    Option CacheEntry × CacheStore :=
  if config.cache.enabled = false then (none, store)
  else
    let key := generateCacheKey hash toolName toolInput projectRoot
    match lookupStore store key with
    | none => (none, store)
    | some entry =>
      let ttlMs := config.cache.ttlHours * 60 * 60 * 1000
      let age := now - entry.timestamp
      if age > ttlMs then (none, eraseStore store key)
      else (some entry, store)

/-- `setCachedDecision` of cache.ts: a no-op when the cache is disabled,
otherwise overwrite the fingerprint slot with a fresh entry and rewrite
the store.  The decision parameter is restricted to allow/deny by its
TypeScript type. -/
def setCachedDecision (hash : String → String) (config : Config)
    (store : CacheStore) (now : Nat) (toolName : String)
    (toolInput : List (String × Json)) (decision : BinaryDecision)
    (reason : String) (projectRoot : Option String) : CacheStore :=
  if config.cache.enabled = false then store
  else
    let key := generateCacheKey hash toolName toolInput projectRoot
    insertStore store key
      ⟨key, decision, reason, now, toolName, toolInput, projectRoot⟩

/-- The record handed to the logging collaborator by `logDecision` (the
logger itself, including its enabled toggle, is an excluded collaborator;
the core only supplies the record). -/
structure LogEntry where
  toolName : String
  decision : String
  reason : String
  decisionSource : String
  sessionId : Option String
  projectRoot : Option String

/-- `PermissionRequestOutput`: the structured allow or deny object
returned by the handler (`createAllowResponse` / `createDenyResponse`). -/
inductive PermissionOutput where
  | allowResponse : PermissionOutput
  | denyResponse : String → PermissionOutput
deriving DecidableEq

/-- The validated permission request (`PermissionRequestInputSchema`
output): tool name, tool input, optional cwd and session id. -/
structure Request where
  toolName : String
  toolInput : List (String × Json)
  cwd : Option String
  sessionId : Option String

/-- One run of the pipeline, observed in full: the returned value
(`none` encodes the passthrough null), the cache store after the run, the
records supplied to the logging collaborator, and whether `queryLLM`,
`setCachedDecision` and `getCachedDecision` were invoked. -/
structure PipelineResult where
  output : Option PermissionOutput
  store : CacheStore
  logCalls : List LogEntry
  llmCalled : Bool
  setCacheCalled : Bool
  cacheChecked : Bool

/-- `handlePermissionRequest` of permission-handler.ts.  Parameters make
the external world explicit: the sha256 primitive, the filesystem
ancestry walk `resolveRoot` used on `cwd`, the built-in pattern tables,
the operator configuration, the loaded cache store, the clock, the
outcome of the (at most one) judgment-service call, the resolved API key,
and the already schema-checked input (`.error` is a validation failure).
The result is `Except` because a fast-tier regex SyntaxError is not
caught anywhere in the handler. -/
def handlePermissionRequest (hash : String → String)
    (resolveRoot : String → String) (builtins : Builtins) (config : Config)
    (store : CacheStore) (now : Nat) (outcome : LLMOutcome)
    (apiKey : Option String) (input : Except Unit Request) :
    Except String PipelineResult :=
  match input with
  | .error _ =>
      .ok ⟨some (.denyResponse "Invalid permission request input"),
        store, [], false, false, false⟩
  | .ok req =>
    let projectRoot := req.cwd.map resolveRoot
    match checkFastDecision builtins config req.toolName req.toolInput with
    | .error e => .error e
    | .ok fastResult =>
      match fastResult.decision with
      | .allow =>
          .ok ⟨some .allowResponse, store,
            [⟨req.toolName, "allow", fastResult.reason.getD "Fast allow",
              "fast", req.sessionId, projectRoot⟩],
            false, false, false⟩
      | .deny =>
          .ok ⟨some (.denyResponse
              (fastResult.reason.getD "Blocked by security pattern")), store,
            [⟨req.toolName, "deny", fastResult.reason.getD "Fast deny",
              "fast", req.sessionId, projectRoot⟩],
            false, false, false⟩
      | .passthrough =>
          .ok ⟨none, store,
            [⟨req.toolName, "passthrough",
              fastResult.reason.getD "Fast passthrough",
              "fast", req.sessionId, projectRoot⟩],
            false, false, false⟩
      | .llm =>
        match getCachedDecision hash config store now req.toolName
            req.toolInput projectRoot with
        | (some cached, store1) =>
            .ok ⟨some (match cached.decision with
                | .allow => .allowResponse
                | .deny => .denyResponse cached.reason),
              store1,
              [⟨req.toolName, cached.decision.toLogString,
                "Cached: " ++ cached.reason, "cache", req.sessionId,
                projectRoot⟩],
              false, false, true⟩
        | (none, store1) =>
          let llmResult :=
            queryLLM req.toolName req.toolInput projectRoot apiKey outcome
          let store2 := setCachedDecision hash config store1 now req.toolName
            req.toolInput llmResult.decision llmResult.reason projectRoot
          .ok ⟨some (match llmResult.decision with
              | .allow => .allowResponse
              | .deny => .denyResponse llmResult.reason),
            store2,
            [⟨req.toolName, llmResult.decision.toLogString, llmResult.reason,
              "llm", req.sessionId, projectRoot⟩],
            true, true, true⟩

/-- If every pattern in a custom deny list is a valid regex and none of
them matches the tool name or the serialized input, the deny loop falls
through without firing and without throwing. -/
theorem checkCustomDeny_ok_none (ps : List RegexSpec) (tn inp : String)
    (h : ∀ p ∈ ps, p.valid = true ∧ p.test tn = false ∧ p.test inp = false) :
    checkCustomDeny ps tn inp = .ok none := by
  induction ps with
  | nil => rfl
  | cons p rest ih =>
    obtain ⟨hv, h1, h2⟩ := h p (List.mem_cons_self p rest)
    simp only [checkCustomDeny, compileRegex, hv, if_true, h1, h2,
      Bool.or_self]
    exact ih (fun q hq => h q (List.mem_cons_of_mem p hq))

/-- If every pattern in a custom deny list is a valid regex, the deny loop
never throws, and when it fires its verdict is a deny. -/
theorem checkCustomDeny_no_throw (ps : List RegexSpec) (tn inp : String)
    (h : ∀ p ∈ ps, p.valid = true) :
    ∃ o, checkCustomDeny ps tn inp = .ok o ∧
      ∀ r, o = some r → r.decision = .deny := by
  induction ps with
  | nil => exact ⟨none, rfl, by intro r hr; cases hr⟩
  | cons p rest ih =>
    have hv := h p (List.mem_cons_self p rest)
    by_cases hm : (p.test tn || p.test inp) = true
    · refine ⟨some ⟨.deny, some ("Blocked by custom deny pattern: " ++ p.src)⟩, ?_, ?_⟩
      · simp only [checkCustomDeny, compileRegex, hv, if_true, hm]
      · intro r hr
        cases hr
        rfl
    · obtain ⟨o, ho, hd⟩ := ih (fun q hq => h q (List.mem_cons_of_mem p hq))
      refine ⟨o, ?_, hd⟩
      simp only [checkCustomDeny, compileRegex, hv, if_true,
        Bool.not_eq_true] at hm ⊢
      simp only [hm, ho]
      rfl

/-- If every pattern in a custom allow list is a valid regex, the allow
loop never throws, and when it fires its verdict is an allow. -/
theorem checkCustomAllow_no_throw (ps : List RegexSpec) (tn : String)
    (h : ∀ p ∈ ps, p.valid = true) :
    ∃ o, checkCustomAllow ps tn = .ok o ∧
      ∀ r, o = some r → r.decision = .allow := by
  induction ps with
  | nil => exact ⟨none, rfl, by intro r hr; cases hr⟩
  | cons p rest ih =>
    have hv := h p (List.mem_cons_self p rest)
    by_cases hm : p.test tn = true
    · refine ⟨some ⟨.allow, some ("Allowed by custom pattern: " ++ p.src)⟩, ?_, ?_⟩
      · simp only [checkCustomAllow, compileRegex, hv, if_true, hm]
      · intro r hr
        cases hr
        rfl
    · obtain ⟨o, ho, hd⟩ := ih (fun q hq => h q (List.mem_cons_of_mem p hq))
      refine ⟨o, ?_, hd⟩
      simp only [checkCustomAllow, compileRegex, hv, if_true,
        Bool.not_eq_true] at hm ⊢
      simp only [hm, ho]
      rfl

/-- If every pattern in a custom passthrough list is a valid regex and
none of them matches, the passthrough loop falls through silently. -/
theorem checkCustomPassthrough_ok_none (ps : List RegexSpec) (tn inp : String)
    (h : ∀ p ∈ ps, p.valid = true ∧ p.test tn = false ∧ p.test inp = false) :
    checkCustomPassthrough ps tn inp = .ok none := by
  induction ps with
  | nil => rfl
  | cons p rest ih =>
    obtain ⟨hv, h1, h2⟩ := h p (List.mem_cons_self p rest)
    simp only [checkCustomPassthrough, compileRegex, hv, if_true, h1, h2,
      Bool.or_self]
    exact ih (fun q hq => h q (List.mem_cons_of_mem p hq))

/-- C1: `queryLLM` always returns a verdict in the allow/deny set and
never throws; with no API credential it denies citing the missing
credential, on an empty response body it denies citing the empty
response, on a network error or a JSON parse error it denies with the
wrapped error message, on a schema violation it denies with the wrapped
validation message, and an allow is returned only when the external call
produced a JSON value that validates to an allow. -/
theorem queryLLM_fail_closed (toolName : String)
    (toolInput : List (String × Json)) (projectRoot : Option String)
    (apiKey : Option String) (outcome : LLMOutcome) :
    ((queryLLM toolName toolInput projectRoot apiKey outcome).decision = .allow ∨
     (queryLLM toolName toolInput projectRoot apiKey outcome).decision = .deny)
  ∧ (apiKey = none →
      queryLLM toolName toolInput projectRoot apiKey outcome =
        ⟨.deny, "No LLM API key configured - cannot make intelligent decision"⟩)
  ∧ (apiKey.isSome = true → outcome = .emptyContent →
      queryLLM toolName toolInput projectRoot apiKey outcome =
        ⟨.deny, "Empty LLM response"⟩)
  ∧ (∀ m, apiKey.isSome = true → outcome = .networkError m →
      queryLLM toolName toolInput projectRoot apiKey outcome =
        ⟨.deny, "LLM error: " ++ m⟩)
  ∧ (∀ m, apiKey.isSome = true → outcome = .parseError m →
      queryLLM toolName toolInput projectRoot apiKey outcome =
        ⟨.deny, "LLM error: " ++ m⟩)
  ∧ (∀ v e, apiKey.isSome = true → outcome = .json v →
      LLMResponseSchemaParse v = .error e →
      queryLLM toolName toolInput projectRoot apiKey outcome =
        ⟨.deny, "LLM error: " ++ e⟩)
  ∧ ((queryLLM toolName toolInput projectRoot apiKey outcome).decision = .allow →
      ∃ v r, outcome = .json v ∧ LLMResponseSchemaParse v = .ok r ∧
        r.decision = .allow) := by
  cases apiKey with
  | none =>
    refine ⟨Or.inr rfl, fun _ => rfl, ?_, ?_, ?_, ?_, ?_⟩ <;>
      simp [queryLLM]
  | some k =>
    cases outcome with
    | networkError m =>
      refine ⟨Or.inr rfl, by simp, by simp, ?_, by simp, by simp, by simp [queryLLM]⟩
      intro m2 _ hm
      cases hm
      rfl
    | emptyContent =>
      exact ⟨Or.inr rfl, by simp, fun _ _ => rfl, by simp, by simp, by simp,
        by simp [queryLLM]⟩
    | parseError m =>
      refine ⟨Or.inr rfl, by simp, by simp, by simp, ?_, by simp, by simp [queryLLM]⟩
      intro m2 _ hm
      cases hm
      rfl
    | json v =>
      cases hp : LLMResponseSchemaParse v with
      | error e =>
        refine ⟨Or.inr ?_, by simp, by simp, by simp, by simp, ?_, ?_⟩
        · simp [queryLLM, hp]
        · intro v2 e2 _ hv he
          cases hv
          rw [hp] at he
          cases he
          simp [queryLLM, hp]
        · simp [queryLLM, hp]
      | ok r =>
        have hq : queryLLM toolName toolInput projectRoot (some k) (.json v) = r := by
          simp [queryLLM, hp]
        refine ⟨?_, by simp, by simp, by simp, by simp, ?_, ?_⟩
        · rw [hq]
          cases hr : r.decision
          · exact Or.inl rfl
          · exact Or.inr rfl
        · intro v2 e2 _ hv he
          cases hv
          rw [hp] at he
          cases he
        · intro hall
          exact ⟨v, r, rfl, hp, by rw [hq] at hall; exact hall⟩

/-- C1 witness: with no configured API key the arbiter denies, citing the
missing credential. -/
theorem queryLLM_fail_closed_no_key :
    queryLLM ("Bash") [] none none LLMOutcome.emptyContent =
      ⟨.deny, "No LLM API key configured - cannot make intelligent decision"⟩ :=
  (queryLLM_fail_closed ("Bash") [] none none LLMOutcome.emptyContent).2.1 rfl

/-- C2: the byte string fed to the sha256 fingerprint hash by
`generateCacheKey` depends on the key order of the toolInput mapping:
the same two key-value pairs in the two orders serialize differently, so
the fingerprint is not a function of the structural content alone. -/
theorem generateCacheKey_input_depends_on_key_order :
    generateCacheKeyData ("Bash")
        [("a", Json.str ("1")), ("b", Json.str ("2"))] none ≠
      generateCacheKeyData ("Bash")
        [("b", Json.str ("2")), ("a", Json.str ("1"))] none := by
  decide

/-- C3: an operator-supplied pattern that is not a valid regular
expression makes `checkFastDecision` throw (the SyntaxError of
`new RegExp` is not caught), instead of being skipped: here a single
invalid custom deny pattern aborts evaluation before any other rule. -/
theorem checkFastDecision_invalid_pattern_throws :
    checkFastDecision ⟨[], []⟩
        ⟨[⟨"(", false, fun _ => false⟩], [], [], ⟨true, 24⟩⟩ ("Bash") [] =
      .error ("Invalid regular expression: (") :=
  rfl

/-- A boolean search over a list succeeds when some member satisfies the
predicate. -/
theorem find?_some_of_exists {α : Type} (l : List α) (p : α → Bool)
    (h : ∃ x ∈ l, p x = true) : ∃ y, l.find? p = some y ∧ p y = true := by
  induction l with
  | nil =>
    obtain ⟨x, hx, _⟩ := h
    cases hx
  | cons a as ih =>
    by_cases ha : p a = true
    · exact ⟨a, List.find?_cons_of_pos as ha, ha⟩
    · obtain ⟨x, hx, hpx⟩ := h
      have hxas : x ∈ as := by
        rcases List.mem_cons.mp hx with hxa | hxas
        · exact absurd (hxa ▸ hpx) ha
        · exact hxas
      obtain ⟨y, hy, hpy⟩ := ih ⟨x, hxas, hpx⟩
      refine ⟨y, ?_, hpy⟩
      rw [List.find?_cons_of_neg as (by simpa using ha)]
      exact hy

/-- When the tool is Bash, a non-empty command is present and some
built-in destructive pattern matches it, the fast tier denies: the
custom deny loop can only deny, and the destructive scan runs before
every allow rule. -/
theorem fastTierDestructiveDeny (builtins : Builtins) (config : Config)
    (toolInput : List (String × Json))
    (hval : ∀ p ∈ config.customDenyPatterns, p.valid = true)
    (hcmd : bashCommand toolInput ≠ "")
    (hmatch : ∃ p ∈ builtins.instantDenyBashPatterns,
      p.test (bashCommand toolInput) = true) :
    ∃ r, checkFastDecision builtins config ("Bash") toolInput = .ok r ∧
      r.decision = .deny := by
  obtain ⟨q, hq, hqt⟩ := find?_some_of_exists _ _ hmatch
  have hbash : checkBashPatterns builtins ("Bash") toolInput =
      some ⟨.deny, some ("Blocked destructive command pattern: " ++ q.src)⟩ := by
    simp [checkBashPatterns, hcmd, hq]
  obtain ⟨o, ho, hd⟩ := checkCustomDeny_no_throw config.customDenyPatterns
    ("Bash") (Json.stringify (Json.obj toolInput)) hval
  cases o with
  | some r =>
    refine ⟨r, ?_, hd r rfl⟩
    simp only [checkFastDecision, ho]
  | none =>
    refine ⟨⟨.deny, some ("Blocked destructive command pattern: " ++ q.src)⟩, ?_, rfl⟩
    simp only [checkFastDecision, ho, hbash]

/-- C4: a Bash command matching both a built-in destructive pattern and a
fast-allow workflow pattern (or an operator allow pattern) is denied by
the fast-rule matcher: the destructive scan precedes every allow check,
so deny wins.  The operator deny patterns are assumed to be valid
regexes (an invalid one would throw instead, see the C3 result). -/
theorem checkFastDecision_destructive_deny_wins (builtins : Builtins)
    (config : Config) (toolInput : List (String × Json))
    (hval : ∀ p ∈ config.customDenyPatterns, p.valid = true)
    (hcmd : bashCommand toolInput ≠ "")
    (hdeny : ∃ p ∈ builtins.instantDenyBashPatterns,
      p.test (bashCommand toolInput) = true)
    (hallow : (∃ p ∈ builtins.fastAllowBashPatterns,
        p.test (bashCommand toolInput) = true) ∨
      (∃ p ∈ config.customAllowPatterns,
        p.valid = true ∧ p.test ("Bash") = true)) :
    ∃ r, checkFastDecision builtins config ("Bash") toolInput = .ok r ∧
      r.decision = .deny :=
  fastTierDestructiveDeny builtins config toolInput hval hcmd hdeny

/-- C4 witness: a command matched by a destructive pattern and by a
fast-allow pattern is denied. -/
theorem checkFastDecision_destructive_deny_wins_example :
    ∃ r, checkFastDecision
        ⟨[⟨"rm-root", true, fun c => decide (c = "rm -rf /")⟩],
         [⟨"workflow", true, fun _ => true⟩]⟩
        ⟨[], [], [], ⟨true, 24⟩⟩ ("Bash")
        [("command", Json.str ("rm -rf /"))] = .ok r ∧
      r.decision = .deny :=
  checkFastDecision_destructive_deny_wins
    ⟨[⟨"rm-root", true, fun c => decide (c = "rm -rf /")⟩],
     [⟨"workflow", true, fun _ => true⟩]⟩
    ⟨[], [], [], ⟨true, 24⟩⟩
    [("command", Json.str ("rm -rf /"))]
    (by intro p hp; cases hp)
    (by decide)
    ⟨⟨"rm-root", true, fun c => decide (c = "rm -rf /")⟩,
      List.mem_singleton.mpr rfl, by decide⟩
    (Or.inl ⟨⟨"workflow", true, fun _ => true⟩,
      List.mem_singleton.mpr rfl, rfl⟩)

/-- C5: when a built-in destructive pattern matches the command of a Bash
request, the pipeline denies at the fast tier, the judgment service is
never called, no cache write happens, and the store is untouched. -/
theorem handle_destructive_short_circuit (hash : String → String)
    (resolveRoot : String → String) (builtins : Builtins) (config : Config)
    (store : CacheStore) (now : Nat) (outcome : LLMOutcome)
    (apiKey : Option String) (req : Request)
    (hval : ∀ p ∈ config.customDenyPatterns, p.valid = true)
    (htn : req.toolName = "Bash")
    (hcmd : bashCommand req.toolInput ≠ "")
    (hdeny : ∃ p ∈ builtins.instantDenyBashPatterns,
      p.test (bashCommand req.toolInput) = true) :
    ∃ res, handlePermissionRequest hash resolveRoot builtins config store now
        outcome apiKey (.ok req) = .ok res
      ∧ (∃ msg, res.output = some (.denyResponse msg))
      ∧ res.llmCalled = false
      ∧ res.setCacheCalled = false
      ∧ res.store = store := by
  obtain ⟨r, hr, hd⟩ :=
    fastTierDestructiveDeny builtins config req.toolInput hval hcmd hdeny
  have hr' : checkFastDecision builtins config req.toolName req.toolInput = .ok r := by
    rw [htn]
    exact hr
  obtain ⟨rd, rr⟩ := r
  cases hd
  refine ⟨⟨some (.denyResponse (rr.getD "Blocked by security pattern")), store,
      [⟨req.toolName, "deny", rr.getD "Fast deny", "fast", req.sessionId,
        req.cwd.map resolveRoot⟩],
      false, false, false⟩,
    ?_, ⟨rr.getD "Blocked by security pattern", rfl⟩, rfl, rfl, rfl⟩
  simp only [handlePermissionRequest, hr']

/-- C5 witness: the concrete destructive scenario rm -rf slash is denied
with no judgment-service call and no cache write. -/
theorem handle_destructive_short_circuit_example :
    ∃ res, handlePermissionRequest (fun s => s) (fun s => s)
        ⟨[⟨"rm-root", true, fun c => decide (c = "rm -rf /")⟩], []⟩
        ⟨[], [], [], ⟨true, 24⟩⟩ [] 0 LLMOutcome.emptyContent none
        (.ok ⟨"Bash", [("command", Json.str ("rm -rf /"))], none, none⟩) = .ok res
      ∧ (∃ msg, res.output = some (.denyResponse msg))
      ∧ res.llmCalled = false
      ∧ res.setCacheCalled = false
      ∧ res.store = [] :=
  handle_destructive_short_circuit (fun s => s) (fun s => s)
    ⟨[⟨"rm-root", true, fun c => decide (c = "rm -rf /")⟩], []⟩
    ⟨[], [], [], ⟨true, 24⟩⟩ [] 0 LLMOutcome.emptyContent none
    ⟨"Bash", [("command", Json.str ("rm -rf /"))], none, none⟩
    (by intro p hp; cases hp) rfl (by decide)
    ⟨⟨"rm-root", true, fun c => decide (c = "rm -rf /")⟩,
      List.mem_singleton.mpr rfl, by decide⟩

/-- Under a fast-tier passthrough verdict, the handler returns the null
output, leaves the store untouched and invokes neither the cache nor the
judgment service. -/
theorem handle_passthrough_run (hash : String → String)
    (resolveRoot : String → String) (builtins : Builtins) (config : Config)
    (store : CacheStore) (now : Nat) (outcome : LLMOutcome)
    (apiKey : Option String) (req : Request) (reason : Option String)
    (hfast : checkFastDecision builtins config req.toolName req.toolInput =
      .ok ⟨.passthrough, reason⟩) :
    handlePermissionRequest hash resolveRoot builtins config store now outcome
        apiKey (.ok req) =
      .ok ⟨none, store,
        [⟨req.toolName, "passthrough", reason.getD "Fast passthrough", "fast",
          req.sessionId, req.cwd.map resolveRoot⟩],
        false, false, false⟩ := by
  simp only [handlePermissionRequest, hfast]

/-- A run of the handler whose output is the passthrough null must come
from a fast-tier passthrough verdict, and such a run touches nothing. -/
theorem handle_output_none_fast_passthrough (hash : String → String)
    (resolveRoot : String → String) (builtins : Builtins) (config : Config)
    (store : CacheStore) (now : Nat) (outcome : LLMOutcome)
    (apiKey : Option String) (input : Except Unit Request)
    (res : PipelineResult)
    (hres : handlePermissionRequest hash resolveRoot builtins config store now
      outcome apiKey input = .ok res)
    (hout : res.output = none) :
    ∃ req reason, input = .ok req ∧
      checkFastDecision builtins config req.toolName req.toolInput =
        .ok ⟨.passthrough, reason⟩ ∧
      res.store = store ∧ res.setCacheCalled = false ∧
      res.cacheChecked = false := by
  cases input with
  | error u =>
    simp only [handlePermissionRequest] at hres
    injection hres with h
    subst h
    simp at hout
  | ok req =>
    simp only [handlePermissionRequest] at hres
    cases hcf : checkFastDecision builtins config req.toolName req.toolInput with
    | error e =>
      rw [hcf] at hres
      cases hres
    | ok fr =>
      rw [hcf] at hres
      obtain ⟨fd, frr⟩ := fr
      cases fd with
      | allow =>
        injection hres with h
        subst h
        simp at hout
      | deny =>
        injection hres with h
        subst h
        simp at hout
      | passthrough =>
        injection hres with h
        subst h
        exact ⟨req, frr, rfl, hcf, rfl, rfl, rfl⟩
      | llm =>
        rcases hg : getCachedDecision hash config store now req.toolName
            req.toolInput (req.cwd.map resolveRoot) with ⟨copt, s1⟩
        rw [hg] at hres
        cases copt with
        | some c =>
          injection hres with h
          subst h
          simp at hout
        | none =>
          injection hres with h
          subst h
          simp at hout

/-- C6: no passthrough is ever cached.  Every entry of the store after a
run carries an allow or deny decision; a run producing the passthrough
null performs no cache write (the store is returned untouched and the
cache is never consulted); and an identical subsequent run re-evaluates
through the fast tier again to the passthrough null without replaying
from the cache. -/
theorem handle_never_caches_passthrough (hash : String → String)
    (resolveRoot : String → String) (builtins : Builtins) (config : Config)
    (store : CacheStore) (now : Nat) (outcome : LLMOutcome)
    (apiKey : Option String) (input : Except Unit Request)
    (res : PipelineResult)
    (hres : handlePermissionRequest hash resolveRoot builtins config store now
      outcome apiKey input = .ok res) :
    (∀ k e, (k, e) ∈ res.store →
      e.decision = BinaryDecision.allow ∨ e.decision = BinaryDecision.deny)
  ∧ (res.output = none →
      res.setCacheCalled = false ∧ res.cacheChecked = false ∧
      res.store = store)
  ∧ (res.output = none →
      ∀ now2 outcome2 apiKey2 res2,
        handlePermissionRequest hash resolveRoot builtins config res.store
          now2 outcome2 apiKey2 input = .ok res2 →
        res2.output = none ∧ res2.cacheChecked = false ∧
        res2.store = res.store) := by
  refine ⟨?_, ?_, ?_⟩
  · intro k e _
    cases e.decision
    · exact Or.inl rfl
    · exact Or.inr rfl
  · intro hout
    obtain ⟨req, reason, hin, hcf, hst, hsc, hcc⟩ :=
      handle_output_none_fast_passthrough hash resolveRoot builtins config
        store now outcome apiKey input res hres hout
    exact ⟨hsc, hcc, hst⟩
  · intro hout now2 outcome2 apiKey2 res2 hres2
    obtain ⟨req, reason, hin, hcf, hst, hsc, hcc⟩ :=
      handle_output_none_fast_passthrough hash resolveRoot builtins config
        store now outcome apiKey input res hres hout
    subst hin
    rw [handle_passthrough_run hash resolveRoot builtins config res.store now2
      outcome2 apiKey2 req reason hcf] at hres2
    injection hres2 with h
    subst h
    exact ⟨rfl, rfl, rfl⟩

/-- C6 witness: the AskUserQuestion request resolves to the passthrough
null and writes nothing to the cache. -/
theorem handle_never_caches_passthrough_example :
    ∃ res, handlePermissionRequest (fun s => s) (fun s => s) ⟨[], []⟩
        ⟨[], [], [], ⟨true, 24⟩⟩ [] 0 LLMOutcome.emptyContent none
        (.ok ⟨"AskUserQuestion", [], none, none⟩) = .ok res
      ∧ res.setCacheCalled = false ∧ res.cacheChecked = false ∧
        res.store = [] := by
  refine ⟨_, rfl, ?_⟩
  exact (handle_never_caches_passthrough (fun s => s) (fun s => s) ⟨[], []⟩
    ⟨[], [], [], ⟨true, 24⟩⟩ [] 0 LLMOutcome.emptyContent none
    (.ok ⟨"AskUserQuestion", [], none, none⟩) _ rfl).2.1 rfl

/-- Writing a fingerprint slot makes it the entry found by the next
lookup of the same fingerprint. -/
theorem lookupStore_insertStore_self (store : CacheStore) (key : String)
    (entry : CacheEntry) :
    lookupStore (insertStore store key entry) key = some entry := by
  simp [lookupStore, insertStore, assocLookup]

/-- C7 counterexample: a Read request is allowed by the fast tier on its
first submission, and the identical second submission is again decided by
the fast tier - the cache is never consulted and the only log record of
the second run carries source fast, not cache. -/
theorem handle_second_submission_not_from_cache :
    ∃ res1 res2,
      handlePermissionRequest (fun s => s) (fun s => s) ⟨[], []⟩
          ⟨[], [], [], ⟨true, 24⟩⟩ [] 0 LLMOutcome.emptyContent none
          (.ok ⟨"Read", [], none, none⟩) = .ok res1
      ∧ res1.output = some .allowResponse
      ∧ handlePermissionRequest (fun s => s) (fun s => s) ⟨[], []⟩
          ⟨[], [], [], ⟨true, 24⟩⟩ res1.store 1 LLMOutcome.emptyContent none
          (.ok ⟨"Read", [], none, none⟩) = .ok res2
      ∧ res2.output = some .allowResponse
      ∧ res2.cacheChecked = false
      ∧ ∀ e ∈ res2.logCalls, e.decisionSource = "fast" := by
  refine ⟨_, _, rfl, rfl, rfl, rfl, rfl, ?_⟩
  intro e he
  rw [List.mem_singleton] at he
  subst he
  rfl

/-- C7 (amended): when the fast tier defers, the cache is enabled and the
fingerprint misses, the first submission resolves through the model
arbiter and an identical second submission within the time-to-live is
served from the cache: same verdict, source tag cache, no second
judgment-service call. -/
theorem handle_model_verdict_replayed (hash : String → String)
    (resolveRoot : String → String) (builtins : Builtins) (config : Config)
    (store : CacheStore) (now1 now2 : Nat) (outcome outcome2 : LLMOutcome)
    (apiKey apiKey2 : Option String) (req : Request) (reason : Option String)
    (hfast : checkFastDecision builtins config req.toolName req.toolInput =
      .ok ⟨.llm, reason⟩)
    (henabled : config.cache.enabled = true)
    (hmiss : lookupStore store (generateCacheKey hash req.toolName
      req.toolInput (req.cwd.map resolveRoot)) = none)
    (hfresh : now2 - now1 ≤ config.cache.ttlHours * 60 * 60 * 1000) :
    ∃ res1 res2,
      handlePermissionRequest hash resolveRoot builtins config store now1
          outcome apiKey (.ok req) = .ok res1
      ∧ res1.llmCalled = true
      ∧ handlePermissionRequest hash resolveRoot builtins config res1.store
          now2 outcome2 apiKey2 (.ok req) = .ok res2
      ∧ res2.output = res1.output
      ∧ res2.llmCalled = false
      ∧ res2.cacheChecked = true
      ∧ ∀ e ∈ res2.logCalls, e.decisionSource = "cache" := by
  have hnotdis : ¬config.cache.enabled = false := by
    simp [henabled]
  have hget1 : getCachedDecision hash config store now1 req.toolName
      req.toolInput (req.cwd.map resolveRoot) = (none, store) := by
    simp only [getCachedDecision, if_neg hnotdis, hmiss]
  have hrun1 : handlePermissionRequest hash resolveRoot builtins config store
      now1 outcome apiKey (.ok req) =
    .ok ⟨some (match (queryLLM req.toolName req.toolInput
          (req.cwd.map resolveRoot) apiKey outcome).decision with
        | .allow => .allowResponse
        | .deny => .denyResponse (queryLLM req.toolName req.toolInput
            (req.cwd.map resolveRoot) apiKey outcome).reason),
      setCachedDecision hash config store now1 req.toolName req.toolInput
        (queryLLM req.toolName req.toolInput (req.cwd.map resolveRoot)
          apiKey outcome).decision
        (queryLLM req.toolName req.toolInput (req.cwd.map resolveRoot)
          apiKey outcome).reason (req.cwd.map resolveRoot),
      [⟨req.toolName, (queryLLM req.toolName req.toolInput
          (req.cwd.map resolveRoot) apiKey outcome).decision.toLogString,
        (queryLLM req.toolName req.toolInput (req.cwd.map resolveRoot)
          apiKey outcome).reason, "llm", req.sessionId,
        req.cwd.map resolveRoot⟩],
      true, true, true⟩ := by
    simp only [handlePermissionRequest, hfast, hget1]
  set llmR := queryLLM req.toolName req.toolInput (req.cwd.map resolveRoot)
    apiKey outcome with hllm
  set key := generateCacheKey hash req.toolName req.toolInput
    (req.cwd.map resolveRoot) with hkey
  set entry : CacheEntry := ⟨key, llmR.decision, llmR.reason, now1,
    req.toolName, req.toolInput, req.cwd.map resolveRoot⟩ with hentry
  have hset1 : setCachedDecision hash config store now1 req.toolName
      req.toolInput llmR.decision llmR.reason (req.cwd.map resolveRoot) =
      insertStore store key entry := by
    simp only [setCachedDecision, if_neg hnotdis]
  have hget2 : getCachedDecision hash config (insertStore store key entry)
      now2 req.toolName req.toolInput (req.cwd.map resolveRoot) =
      (some entry, insertStore store key entry) := by
    simp only [getCachedDecision, if_neg hnotdis, ← hkey,
      lookupStore_insertStore_self]
    have hage : ¬(now2 - entry.timestamp >
        config.cache.ttlHours * 60 * 60 * 1000) :=
      Nat.not_lt.mpr hfresh
    rw [if_neg hage]
  have hrun2 : handlePermissionRequest hash resolveRoot builtins config
      (insertStore store key entry) now2 outcome2 apiKey2 (.ok req) =
    .ok ⟨some (match entry.decision with
        | .allow => .allowResponse
        | .deny => .denyResponse entry.reason),
      insertStore store key entry,
      [⟨req.toolName, entry.decision.toLogString,
        "Cached: " ++ entry.reason, "cache", req.sessionId,
        req.cwd.map resolveRoot⟩],
      false, false, true⟩ := by
    simp only [handlePermissionRequest, hfast, hget2]
  rw [hset1] at hrun1
  refine ⟨_, _, hrun1, rfl, hrun2, ?_, ?_, ?_, ?_⟩
  · rfl
  · rfl
  · rfl
  · intro e he
    rw [List.mem_singleton] at he
    subst he
    rfl

/-- C7 witness: an unmatched tool resolves through the model arbiter
(here: deny for missing credential); the identical resubmission one
second later is replayed from cache with source cache. -/
theorem handle_model_verdict_replayed_example :
    ∃ res1 res2,
      handlePermissionRequest (fun s => s) (fun s => s) ⟨[], []⟩
          ⟨[], [], [], ⟨true, 24⟩⟩ [] 0 LLMOutcome.emptyContent none
          (.ok ⟨"SomeTool", [], none, none⟩) = .ok res1
      ∧ res1.llmCalled = true
      ∧ handlePermissionRequest (fun s => s) (fun s => s) ⟨[], []⟩
          ⟨[], [], [], ⟨true, 24⟩⟩ res1.store 1000 LLMOutcome.emptyContent none
          (.ok ⟨"SomeTool", [], none, none⟩) = .ok res2
      ∧ res2.output = res1.output
      ∧ res2.llmCalled = false
      ∧ res2.cacheChecked = true
      ∧ ∀ e ∈ res2.logCalls, e.decisionSource = "cache" :=
  handle_model_verdict_replayed (fun s => s) (fun s => s) ⟨[], []⟩
    ⟨[], [], [], ⟨true, 24⟩⟩ [] 0 1000 LLMOutcome.emptyContent
    LLMOutcome.emptyContent none none ⟨"SomeTool", [], none, none⟩
    (some "Requires LLM analysis") (by rfl) rfl rfl (by decide)

/-- C8: a cache entry whose age exceeds the time-to-live is treated as
absent by the lookup and evicted from the store as a side effect; and the
write operation never sweeps: every entry under a different fingerprint
survives a write, whatever its age. -/
theorem getCachedDecision_expired_evicted (hash : String → String)
    (config : Config) (store : CacheStore) (now : Nat) (toolName : String)
    (toolInput : List (String × Json)) (projectRoot : Option String)
    (entry : CacheEntry)
    (henabled : config.cache.enabled = true)
    (hentry : lookupStore store
      (generateCacheKey hash toolName toolInput projectRoot) = some entry)
    (hexpired : now - entry.timestamp >
      config.cache.ttlHours * 60 * 60 * 1000) :
    getCachedDecision hash config store now toolName toolInput projectRoot =
      (none,
        eraseStore store (generateCacheKey hash toolName toolInput projectRoot))
  ∧ ∀ (store2 : CacheStore) (now2 : Nat) (tn2 : String)
      (ti2 : List (String × Json)) (dec : BinaryDecision) (reason : String)
      (pr2 : Option String) (k : String) (e : CacheEntry),
      (k, e) ∈ store2 → k ≠ generateCacheKey hash tn2 ti2 pr2 →
      (k, e) ∈ setCachedDecision hash config store2 now2 tn2 ti2 dec reason pr2 := by
  constructor
  · have hnotdis : ¬config.cache.enabled = false := by simp [henabled]
    simp only [getCachedDecision, if_neg hnotdis, hentry]
    rw [if_pos hexpired]
  · intro store2 now2 tn2 ti2 dec reason pr2 k e hmem hne
    by_cases hdis : config.cache.enabled = false
    · simp only [setCachedDecision, if_pos hdis]
      exact hmem
    · simp only [setCachedDecision, if_neg hdis, insertStore]
      refine List.mem_cons_of_mem _ ?_
      simp only [eraseStore]
      exact List.mem_filter.mpr ⟨hmem, by simpa using hne⟩

/-- C8 witness: a 0-timestamped allow entry looked up just past the 24
hour TTL is reported absent. -/
theorem getCachedDecision_expired_evicted_example :
    (getCachedDecision (fun s => s) ⟨[], [], [], ⟨true, 24⟩⟩
      [(generateCacheKey (fun s => s) ("Bash") [] none,
        ⟨generateCacheKey (fun s => s) ("Bash") [] none, BinaryDecision.allow,
          "ok", 0, "Bash", [], none⟩)]
      86400001 ("Bash") [] none).1 = none := by
  have h := (getCachedDecision_expired_evicted (fun s => s)
    ⟨[], [], [], ⟨true, 24⟩⟩
    [(generateCacheKey (fun s => s) ("Bash") [] none,
      ⟨generateCacheKey (fun s => s) ("Bash") [] none, BinaryDecision.allow,
        "ok", 0, "Bash", [], none⟩)]
    86400001 ("Bash") [] none
    ⟨generateCacheKey (fun s => s) ("Bash") [] none, BinaryDecision.allow,
      "ok", 0, "Bash", [], none⟩
    rfl (by simp [lookupStore, assocLookup]) (by decide)).1
  rw [h]

/-- When the tool name sits in the instant-allow list and the operator
patterns are valid and silent for this request, the fast tier allows. -/
theorem fastTierInstantAllow (builtins : Builtins) (config : Config)
    (toolName : String) (toolInput : List (String × Json))
    (htool : toolName ∈ INSTANT_ALLOW_TOOLS)
    (hdeny : ∀ p ∈ config.customDenyPatterns, p.valid = true ∧
      p.test toolName = false ∧
      p.test (Json.stringify (Json.obj toolInput)) = false)
    (hallow : ∀ p ∈ config.customAllowPatterns, p.valid = true)
    (hpass : ∀ p ∈ config.customPassthroughPatterns, p.valid = true ∧
      p.test toolName = false ∧
      p.test (Json.stringify (Json.obj toolInput)) = false) :
    ∃ r, checkFastDecision builtins config toolName toolInput = .ok r ∧
      r.decision = .allow := by
  have hnb : toolName ≠ "Bash" := by
    intro h
    subst h
    revert htool
    decide
  have hd := checkCustomDeny_ok_none config.customDenyPatterns toolName
    (Json.stringify (Json.obj toolInput)) hdeny
  have hbash : checkBashPatterns builtins toolName toolInput = none := by
    simp [checkBashPatterns, hnb]
  obtain ⟨o, ho, hoa⟩ :=
    checkCustomAllow_no_throw config.customAllowPatterns toolName hallow
  have hp := checkCustomPassthrough_ok_none config.customPassthroughPatterns
    toolName (Json.stringify (Json.obj toolInput)) hpass
  cases o with
  | some r =>
    refine ⟨r, ?_, hoa r rfl⟩
    simp only [checkFastDecision, hd, hbash, checkFastDecisionRest, ho]
  | none =>
    have hnp : toolName ∉ INSTANT_PASSTHROUGH_TOOLS := by
      intro hc
      have hq : toolName = "AskUserQuestion" := by
        simpa [INSTANT_PASSTHROUGH_TOOLS] using hc
      subst hq
      revert htool
      decide
    refine ⟨⟨.allow, some ("Tool " ++ toolName ++ " is in instant-allow list")⟩,
      ?_, rfl⟩
    simp [checkFastDecision, hd, hbash, checkFastDecisionRest, ho, hp, hnp,
      htool]

/-- C9: a request whose tool name is in the fixed allow-list is allowed
by the pipeline from the fast tier - for every cache store, clock,
judgment-service outcome and credential state alike: the store is
untouched, the cache is never consulted, the judgment service is never
called, and the verdict is logged with source fast.  The operator
pattern lists are assumed valid and non-matching for this request (an
operator pattern firing first would by design take precedence). -/
theorem handle_instant_allow_tool (hash : String → String)
    (resolveRoot : String → String) (builtins : Builtins) (config : Config)
    (store : CacheStore) (now : Nat) (outcome : LLMOutcome)
    (apiKey : Option String) (req : Request)
    (htool : req.toolName ∈ INSTANT_ALLOW_TOOLS)
    (hdeny : ∀ p ∈ config.customDenyPatterns, p.valid = true ∧
      p.test req.toolName = false ∧
      p.test (Json.stringify (Json.obj req.toolInput)) = false)
    (hallow : ∀ p ∈ config.customAllowPatterns, p.valid = true)
    (hpass : ∀ p ∈ config.customPassthroughPatterns, p.valid = true ∧
      p.test req.toolName = false ∧
      p.test (Json.stringify (Json.obj req.toolInput)) = false) :
    ∃ res, handlePermissionRequest hash resolveRoot builtins config store now
        outcome apiKey (.ok req) = .ok res
      ∧ res.output = some .allowResponse
      ∧ res.llmCalled = false
      ∧ res.setCacheCalled = false
      ∧ res.store = store
      ∧ res.cacheChecked = false
      ∧ ∀ e ∈ res.logCalls, e.decisionSource = "fast" := by
  obtain ⟨r, hr, ha⟩ := fastTierInstantAllow builtins config req.toolName
    req.toolInput htool hdeny hallow hpass
  obtain ⟨rd, rr⟩ := r
  cases ha
  have hrun : handlePermissionRequest hash resolveRoot builtins config store
      now outcome apiKey (.ok req) =
    .ok ⟨some .allowResponse, store,
      [⟨req.toolName, "allow", rr.getD "Fast allow", "fast", req.sessionId,
        req.cwd.map resolveRoot⟩],
      false, false, false⟩ := by
    simp only [handlePermissionRequest, hr]
  refine ⟨_, hrun, rfl, rfl, rfl, rfl, rfl, ?_⟩
  intro e he
  rw [List.mem_singleton] at he
  subst he
  rfl

/-- C9 witness: the Read request is allowed from the fast tier although
the credential is absent and the judgment service would fail. -/
theorem handle_instant_allow_tool_example :
    ∃ res, handlePermissionRequest (fun s => s) (fun s => s) ⟨[], []⟩
        ⟨[], [], [], ⟨true, 24⟩⟩ [] 0 (LLMOutcome.networkError "down") none
        (.ok ⟨"Read", [("path", Json.str ("/any/file"))], none, none⟩) = .ok res
      ∧ res.output = some .allowResponse
      ∧ res.llmCalled = false
      ∧ res.setCacheCalled = false
      ∧ res.store = []
      ∧ res.cacheChecked = false
      ∧ ∀ e ∈ res.logCalls, e.decisionSource = "fast" :=
  handle_instant_allow_tool (fun s => s) (fun s => s) ⟨[], []⟩
    ⟨[], [], [], ⟨true, 24⟩⟩ [] 0 (LLMOutcome.networkError "down") none
    ⟨"Read", [("path", Json.str ("/any/file"))], none, none⟩
    (by decide)
    (by intro p hp; cases hp)
    (by intro p hp; cases hp)
    (by intro p hp; cases hp)

/-- C10: for a Bash request with no command field, or with an empty
command string, the built-in destructive and fast-allow pattern tables
are skipped entirely - the fast verdict does not depend on them at all -
and when the custom deny loop is silent, evaluation falls through
directly to the rules after the Bash block (custom allow, custom
passthrough, and the fixed tool lists). -/
theorem checkFastDecision_bash_empty_command (builtins builtins2 : Builtins)
    (config : Config) (toolInput : List (String × Json))
    (hcmd : assocLookup toolInput ("command") = none ∨
      assocLookup toolInput ("command") = some (Json.str "")) :
    checkFastDecision builtins config ("Bash") toolInput =
      checkFastDecision builtins2 config ("Bash") toolInput
  ∧ (checkCustomDeny config.customDenyPatterns ("Bash")
        (Json.stringify (Json.obj toolInput)) = .ok none →
      checkFastDecision builtins config ("Bash") toolInput =
        checkFastDecisionRest config ("Bash")
          (Json.stringify (Json.obj toolInput))) := by
  have hbc : bashCommand toolInput = "" := by
    rcases hcmd with h | h <;> simp [bashCommand, h]
  have hbash : ∀ b : Builtins, checkBashPatterns b ("Bash") toolInput = none := by
    intro b
    simp [checkBashPatterns, hbc]
  constructor
  · simp only [checkFastDecision, hbash]
  · intro hd
    simp only [checkFastDecision, hd, hbash]

/-- C10 witness: with no command field, non-empty and empty built-in
tables agree, and evaluation lands in the post-Bash rules. -/
theorem checkFastDecision_bash_empty_command_example :
    (checkFastDecision ⟨[⟨"match-all", true, fun _ => true⟩],
        [⟨"match-all", true, fun _ => true⟩]⟩
        ⟨[], [], [], ⟨true, 24⟩⟩ ("Bash") [] =
      checkFastDecision ⟨[], []⟩ ⟨[], [], [], ⟨true, 24⟩⟩ ("Bash") [])
  ∧ (checkFastDecision ⟨[⟨"match-all", true, fun _ => true⟩],
        [⟨"match-all", true, fun _ => true⟩]⟩
        ⟨[], [], [], ⟨true, 24⟩⟩ ("Bash") [] =
      checkFastDecisionRest ⟨[], [], [], ⟨true, 24⟩⟩ ("Bash")
        (Json.stringify (Json.obj []))) :=
  ⟨(checkFastDecision_bash_empty_command
      ⟨[⟨"match-all", true, fun _ => true⟩],
       [⟨"match-all", true, fun _ => true⟩]⟩
      ⟨[], []⟩ ⟨[], [], [], ⟨true, 24⟩⟩ [] (Or.inl rfl)).1,
   (checkFastDecision_bash_empty_command
      ⟨[⟨"match-all", true, fun _ => true⟩],
       [⟨"match-all", true, fun _ => true⟩]⟩
      ⟨[], []⟩ ⟨[], [], [], ⟨true, 24⟩⟩ [] (Or.inl rfl)).2 rfl⟩
